/-
Verification of the article storage and deduplication layer of saga-be
(`src/storage/article_manager.py`, class `ArticleStorageManager`).

Shallow embedding conventions:
* JSON values are modelled by the inductive type `Json`; Python dicts are
  association lists `List (String × Json)` with first-match lookup (Python
  dicts have unique keys, so first-match lookup agrees with dict lookup;
  `setAssoc` mirrors dict assignment: replace in place or append).
* The filesystem of one-JSON-file-per-article is modelled as a scan-ordered
  list `files : List (String × Option Json)` pairing each file's stem (the
  article ID, from `<id>.json`) with its parsed content; `none` models a
  file whose `json.load` raises (corrupt / unreadable JSON).  The
  date-directory partitioning only affects scan order, which the list order
  abstracts.
* `random.choices` draws are modelled by an explicit stream (list) of
  candidate strings consumed in order.
* Python exceptions are modelled with `Except String`; text handling is
  modelled for ASCII text (Python's `str.lower`/`\s` are Unicode-aware,
  the articles and keywords considered here are ASCII).
-/
import Mathlib

set_option maxHeartbeats 1000000
set_option maxRecDepth 10000

/-- JSON values (the subset relevant to the article store). -/
inductive Json where
  | null
  | bool (b : Bool)
  | num (n : Int)
  | str (s : String)
  | arr (elems : List Json)
  | obj (fields : List (String × Json))

/-- Dict lookup: first binding of the key (Python dict keys are unique). -/
def getAssoc {α : Type} : List (String × α) → String → Option α
  | [], _ => none
  | (k, v) :: rest, key => if k = key then some v else getAssoc rest key

/-- Dict assignment `d[k] = v`: replace in place, else append. -/
def setAssoc {α : Type} : List (String × α) → String → α → List (String × α)
  | [], k, v => [(k, v)]
  | (k', v') :: rest, k, v =>
    if k' = k then (k, v) :: rest else (k', v') :: setAssoc rest k v

/-- Python `key in dict`. -/
def hasKey (fs : List (String × Json)) (k : String) : Bool :=
  (getAssoc fs k).isSome

/-- Python truthiness of a JSON value (`if x:`). -/
def jsonTruthy : Json → Bool
  | Json.null => false
  | Json.bool b => b
  | Json.num n => decide (n ≠ 0)
  | Json.str s => decide (s ≠ "")
  | Json.arr l => !l.isEmpty
  | Json.obj l => !l.isEmpty

mutual

/-- Computable structural size of a JSON value (used as recursion fuel). -/
def jsonSize : Json → Nat
  | Json.null => 1
  | Json.bool _ => 1
  | Json.num _ => 1
  | Json.str _ => 1
  | Json.arr l => 1 + jsonSizeList l
  | Json.obj l => 1 + jsonSizeFields l

def jsonSizeList : List Json → Nat
  | [] => 1
  | j :: rest => 1 + jsonSize j + jsonSizeList rest

def jsonSizeFields : List (String × Json) → Nat
  | [] => 1
  | (_, v) :: rest => 1 + jsonSize v + jsonSizeFields rest

end

theorem jsonSizeFields_pos (fs : List (String × Json)) : 1 ≤ jsonSizeFields fs := by
  cases fs with
  | nil => simp [jsonSizeFields]
  | cons hd tl =>
    obtain ⟨k, v⟩ := hd
    simp only [jsonSizeFields]
    omega

theorem jsonSize_getAssoc (fs : List (String × Json)) (k : String) (v : Json)
    (h : getAssoc fs k = some v) : jsonSize v < jsonSizeFields fs := by
  induction fs with
  | nil => simp [getAssoc] at h
  | cons hd tl ih =>
    obtain ⟨k', v'⟩ := hd
    simp only [getAssoc] at h
    split at h
    · cases h
      simp only [jsonSizeFields]
      omega
    · have := ih h
      simp only [jsonSizeFields]
      omega

/--
Fuel-driven body of `unwrap_article`: one step per fuel unit.  The real
loop (`article_manager.py` lines 15-20) runs
`while isinstance(result.get("data"), dict) and ("url" in result["data"] or
"argos_id" in result["data"]): result = result["data"]`; each step descends
into a structurally smaller value, so `jsonSizeFields` fuel always suffices.
-/
def unwrapAux : Nat → List (String × Json) → List (String × Json)
  | 0, fs => fs
  | fuel + 1, fs =>
    match getAssoc fs "data" with
    | some (Json.obj gs) =>
      if hasKey gs "url" || hasKey gs "argos_id" then unwrapAux fuel gs else fs
    | _ => fs

/-- `unwrap_article` (article_manager.py lines 15-20): strip nested `data`
wrappers while the `data` value is a dict containing `url` or `argos_id`. -/
def unwrap_article (fs : List (String × Json)) : List (String × Json) :=
  unwrapAux (jsonSizeFields fs) fs

theorem unwrapAux_congr (fuel₁ : Nat) :
    ∀ fuel₂ fs, jsonSizeFields fs ≤ fuel₁ → jsonSizeFields fs ≤ fuel₂ →
      unwrapAux fuel₁ fs = unwrapAux fuel₂ fs := by
  induction fuel₁ with
  | zero =>
    intro fuel₂ fs h₁ _
    have := jsonSizeFields_pos fs
    omega
  | succ n ih =>
    intro fuel₂ fs h₁ h₂
    cases fuel₂ with
    | zero =>
      have := jsonSizeFields_pos fs
      omega
    | succ m =>
      simp only [unwrapAux]
      split
      · next gs hg =>
        split
        · have hlt : jsonSize (Json.obj gs) < jsonSizeFields fs :=
            jsonSize_getAssoc fs "data" _ hg
          have hgs : jsonSizeFields gs < jsonSizeFields fs := by
            simp only [jsonSize] at hlt; omega
          exact ih m gs (by omega) (by omega)
        · rfl
      · rfl

/-- Unfolding equation for `unwrap_article`. -/
theorem unwrap_article_eq (fs : List (String × Json)) :
    unwrap_article fs =
      match getAssoc fs "data" with
      | some (Json.obj gs) =>
        if hasKey gs "url" || hasKey gs "argos_id" then unwrap_article gs else fs
      | _ => fs := by
  have hpos : 1 ≤ jsonSizeFields fs := jsonSizeFields_pos fs
  unfold unwrap_article
  obtain ⟨n, hn⟩ : ∃ n, jsonSizeFields fs = n + 1 := ⟨jsonSizeFields fs - 1, by omega⟩
  rw [hn]
  simp only [unwrapAux]
  split
  · next gs hg =>
    split
    · have hlt : jsonSize (Json.obj gs) < jsonSizeFields fs :=
        jsonSize_getAssoc fs "data" _ hg
      have hgs : jsonSizeFields gs < jsonSizeFields fs := by
        simp only [jsonSize] at hlt; omega
      exact unwrapAux_congr n (jsonSizeFields gs) gs (by omega) (le_refl _)
    · rfl
  · rfl

/-- The loop-exit condition of `unwrap_article`: the result's `data` field,
if it is a dict, contains neither `url` nor `argos_id`. -/
def dataChildFlat (fs : List (String × Json)) : Bool :=
  match getAssoc fs "data" with
  | some (Json.obj gs) => !(hasKey gs "url" || hasKey gs "argos_id")
  | _ => true

theorem unwrap_article_flat_aux :
    ∀ n fs, jsonSizeFields fs ≤ n → dataChildFlat (unwrap_article fs) = true := by
  intro n
  induction n with
  | zero =>
    intro fs h
    have := jsonSizeFields_pos fs
    omega
  | succ m ih =>
    intro fs h
    rw [unwrap_article_eq fs]
    split
    · next gs hg =>
      split
      · next hcond =>
        have hlt : jsonSize (Json.obj gs) < jsonSizeFields fs :=
          jsonSize_getAssoc fs "data" _ hg
        have hgs : jsonSizeFields gs < jsonSizeFields fs := by
          simp only [jsonSize] at hlt; omega
        exact ih gs (by omega)
      · next hcond =>
        simp only [dataChildFlat, hg]
        simp only [Bool.not_eq_true] at hcond
        simp [hcond]
    · next hg =>
      unfold dataChildFlat
      split
      · next gs hval => exact (hg gs hval).elim
      · rfl

theorem unwrap_article_flat (fs : List (String × Json)) :
    dataChildFlat (unwrap_article fs) = true :=
  unwrap_article_flat_aux (jsonSizeFields fs) fs (le_refl _)

theorem unwrap_article_idem (fs : List (String × Json)) :
    unwrap_article (unwrap_article fs) = unwrap_article fs := by
  have hflat := unwrap_article_flat fs
  rw [unwrap_article_eq (unwrap_article fs)]
  simp only [dataChildFlat] at hflat
  split
  · next gs hg =>
    rw [hg] at hflat
    simp only [Bool.not_eq_true', Bool.or_eq_false_iff] at hflat
    simp [hflat.1, hflat.2]
  · rfl

/-
## Store state and the store / lookup operations

`ArticleStorageManager` keeps two in-memory indexes beside the files:
`self.article_ids : Set[str]` and `self.url_to_id : Dict[str, str]`.
-/

/-- In-memory state of an `ArticleStorageManager` plus the filesystem it
manages.  `files` is the scan-ordered list of `<stem>.json` files with
parsed content (`none` = unreadable/corrupt JSON). -/
structure StoreState where
  article_ids : List String
  url_to_id : List (String × String)
  files : List (String × Option Json)

/-- `pub_date = article_data.get("pubDate") or article_data.get("published_date")`
(store_article line 61): Python `or` takes the first truthy operand. -/
def pubDateVal (a : List (String × Json)) : Json :=
  let pd1 := (getAssoc a "pubDate").getD Json.null
  if jsonTruthy pd1 then pd1 else (getAssoc a "published_date").getD Json.null

/--
The write path of `store_article` (lines 73-87): write the (already
unwrapped) article as `<argos_id>.json`, add the ID to `article_ids`, and,
when a truthy `url` is present, set `url_to_id[url] = argos_id`
(overwriting any previous binding).  The date-directory choice (lines
60-71) only affects placement, which the flat `files` list abstracts.
A truthy non-string `url` would be cached under a non-string key, which a
string-keyed `find_article_by_url` lookup can never hit, so it is modelled
as not cached.
-/
def store_write (s : StoreState) (a : List (String × Json)) (aid : String) : StoreState :=
  { article_ids := aid :: s.article_ids
    url_to_id :=
      match getAssoc a "url" with
      | some (Json.str u) => if u = "" then s.url_to_id else setAssoc s.url_to_id u aid
      | _ => s.url_to_id
    files := s.files ++ [(aid, some (Json.obj a))] }

/--
`store_article` (article_manager.py lines 47-87).  Steps, in source order:
unwrap; `argos_id = article_data.get("argos_id")`; `if not argos_id: raise
ValueError("Article must have argos_id")`; if `argos_id in self.article_ids`
return it unchanged; pick the target directory from the publication date
(a truthy non-string publication date makes `pub_date.split("T")` raise,
modelled as an error); write the file and update both caches.  A truthy
non-string `argos_id` (Python would coerce it into the file name) is
outside the model and mapped to a distinguished error.
-/
def store_article (s : StoreState) (article : List (String × Json)) :
    Except String (String × StoreState) :=
  match (getAssoc (unwrap_article article) "argos_id").getD Json.null with
  | Json.str aid =>
    if aid = "" then Except.error "Article must have argos_id"
    else if aid ∈ s.article_ids then Except.ok (aid, s)
    else
      match pubDateVal (unwrap_article article) with
      | Json.str _ => Except.ok (aid, store_write s (unwrap_article article) aid)
      | pd =>
        if jsonTruthy pd then Except.error "publication date is not a string"
        else Except.ok (aid, store_write s (unwrap_article article) aid)
  | v =>
    if jsonTruthy v then Except.error "non-string argos_id is outside the model"
    else Except.error "Article must have argos_id"

/-- `get_article` (lines 89-98): return the file content verbatim (no
unwrapping on read); `none` if no date directory holds `<id>.json`; a
corrupt file makes `json.load` raise (there is no try/except here). -/
def get_article (s : StoreState) (id : String) : Except String (Option Json) :=
  match getAssoc s.files id with
  | none => Except.ok none
  | some none => Except.error "json.load failed"
  | some (some j) => Except.ok (some j)

/-- `find_article_by_url` (lines 160-174): `if not url: return None`, then
an O(1) cache lookup. -/
def find_article_by_url (s : StoreState) (url : String) : Option String :=
  if url = "" then none else getAssoc s.url_to_id url

/--
`generate_article_id` (lines 318-332) modelled over an explicit stream of
random draws: the `while True` loop keeps drawing 9-character candidates
and returns the first one not in `self.article_ids`; it never adds the
returned ID to the set.  The result pairs the chosen ID with the unconsumed
remainder of the stream (so successive calls thread the stream through);
`none` means every modelled draw collided — the real loop is still running.
-/
def generate_article_id_run (ids : List String) : List String → Option (String × List String)
  | [] => none
  | c :: rest => if c ∈ ids then generate_article_id_run ids rest else some (c, rest)

/-- The ID produced by one `generate_article_id` call on a given draw
stream (discarding the remainder of the stream). -/
def generate_article_id (ids : List String) (draws : List String) : Option String :=
  (generate_article_id_run ids draws).map Prod.fst

/--
Modelled from the spec: the generator the spec describes — "retry
(bounded, e.g. up to 100 attempts, then fall back to a time-derived
suffix)" — which is **not** what the code under `src/` does; it exists
only to contrast with `generate_article_id`.  `fb` is the deterministic
time-derived fallback ID, `bound` the attempt bound.
-/
def generate_article_id_claimed (ids : List String) (fb : String) :
    Nat → List String → String
  | 0, _ => fb
  | _ + 1, [] => fb
  | bound + 1, c :: rest =>
    if c ∈ ids then generate_article_id_claimed ids fb bound rest else c

/-
## Keyword matching (`_build_keyword_pattern` + `pattern.search`)

`_build_keyword_pattern` (lines 176-186) builds, for keyword `kw`:
`s = kw.lower().strip()`; `parts = re.split(r"[hyphen slash \s]+", s)` (the class written here with words for the hyphen and the slash) with empty
parts dropped; `inner = r"(?:[hyphen slash \s]?)".join(re.escape(p) for p in parts)`
(or `re.escape(s)` when no parts survive);
`pattern = rf"(?<![a-z0-9]){inner}(?![a-z0-9])"`.
The functions below implement exactly the search semantics of that regex
on a list of (already lowercased) characters: a match exists at some
position whose preceding character (if any) is outside `[a-z0-9]`, where
the parts occur consecutively with at most one of `-`, `/`, or a
whitespace character between adjacent parts, followed by a character (if
any) outside `[a-z0-9]`.
-/

/-- The characters matched by Python's `\s` (ASCII range). -/
def isPySpace (c : Char) : Bool :=
  c = ' ' || c = '\t' || c = '\n' || c = '\r' || c = '\x0b' || c = '\x0c'

/-- The regex character class of hyphen, slash and `\s`, used both to
split keywords and as the flexible separator. -/
def isSepChar (c : Char) : Bool :=
  c = '-' || c = '/' || isPySpace c

/-- The regex class `[a-z0-9]` used in the boundary lookarounds (the text
is lowercased before searching). -/
def isWordChar (c : Char) : Bool :=
  ('a' ≤ c && c ≤ 'z') || ('0' ≤ c && c ≤ '9')

/-- Python `str.lower()` (ASCII). -/
def pyLower (cs : List Char) : List Char :=
  cs.map Char.toLower

/-- Python `str.strip()` (ASCII whitespace). -/
def pyStrip (cs : List Char) : List Char :=
  (((cs.dropWhile isPySpace).reverse).dropWhile isPySpace).reverse

/-- `re.split` on runs of separator characters, with empty strings dropped
(`parts = [p for p in parts if p]`). -/
def splitSeps : List Char → List Char → List (List Char)
  | [], acc => if acc.isEmpty then [] else [acc.reverse]
  | c :: rest, acc =>
    if isSepChar c then
      if acc.isEmpty then splitSeps rest [] else acc.reverse :: splitSeps rest []
    else splitSeps rest (c :: acc)

/-- The token list of a keyword: lowercase, strip, split on separator runs;
when nothing survives, the literal stripped string is the single token
(the `if not parts: inner = re.escape(s)` branch). -/
def keywordParts (kw : String) : List (List Char) :=
  let s := pyStrip (pyLower kw.data)
  let ps := splitSeps s []
  if ps.isEmpty then [s] else ps

/-- Match the remaining tokens, each preceded by an optional single
separator (the optional single separator between adjacent parts, with both
backtracking alternatives), then the trailing `(?![a-z0-9])` lookahead. -/
def matchTail : List (List Char) → List Char → Bool
  | [], rest =>
    match rest with
    | [] => true
    | c :: _ => !isWordChar c
  | p :: ps, rest =>
    (p.isPrefixOf rest && matchTail ps (rest.drop p.length)) ||
    (match rest with
     | [] => false
     | c :: r => isSepChar c && p.isPrefixOf r && matchTail ps (r.drop p.length))

/-- Match the whole token sequence at the current position (no separator
before the first token). -/
def matchFrom (parts : List (List Char)) (rest : List Char) : Bool :=
  match parts with
  | [] => matchTail [] rest
  | p :: ps => p.isPrefixOf rest && matchTail ps (rest.drop p.length)

/-- The `(?<![a-z0-9])` lookbehind: `prev` is the character preceding the
candidate position (`none` at the start of the text). -/
def boundaryOk : Option Char → Bool
  | none => true
  | some c => !isWordChar c

/-- `pattern.search`: does the pattern match at any position of the text? -/
def searchFrom (parts : List (List Char)) : Option Char → List Char → Bool
  | prev, text =>
    (boundaryOk prev && matchFrom parts text) ||
    (match text with
     | [] => false
     | c :: rest => searchFrom parts (some c) rest)

/-- `self._build_keyword_pattern(kw).search(text_lower)` — `textLower`
must already be lowercased, as `text_lower` is in `search_by_keywords`. -/
def kwSearch (kw : String) (textLower : List Char) : Bool :=
  searchFrom (keywordParts kw) none textLower

/-
## Keyword search, listing, and index construction
-/

/-- One entry of the list returned by `search_by_keywords` (lines 268-275):
`{"article_id": ..., "matched_keywords": ..., "hit_count": ..., "article": ...}`. -/
structure SearchMatch where
  article_id : String
  matched_keywords : List String
  hit_count : Nat
  article : Json

/-- The keyword preparation loop of `search_by_keywords` (lines 219-228):
drop falsy keywords, lowercase, and deduplicate, preserving first-seen
order.  `seen` accumulates the lowercased keywords already taken. -/
def prepKeywordsGo : List String → List String → List String
  | [], _ => []
  | k :: ks, seen =>
    if k = "" then prepKeywordsGo ks seen
    else
      let kk := String.mk (pyLower k.data)
      if kk ∈ seen then prepKeywordsGo ks seen
      else kk :: prepKeywordsGo ks (kk :: seen)

def prepKeywords (kws : List String) : List String :=
  prepKeywordsGo kws []

/--
The text-extraction block of `search_by_keywords` (lines 253-260), which
runs inside the per-file `try`:
`data = article_data.get("data", article_data)`;
`title = data.get("title", "")`;
`summary = data.get("summary", "") or data.get("description", "")`;
`argos_summary = data.get("argos_summary", "")`;
`text = " ".join([title, summary, argos_summary]).strip()`.
`none` models any exception on this path (non-dict value where an
attribute is accessed, or a non-string field reaching `" ".join`), which
makes the scan skip the file.
-/
def extractText (article : Json) : Option (List Char) :=
  match article with
  | Json.obj fs =>
    match (getAssoc fs "data").getD (Json.obj fs) with
    | Json.obj ds =>
      match (getAssoc ds "title").getD (Json.str "") with
      | Json.str title =>
        match
          (let sv := (getAssoc ds "summary").getD (Json.str "")
           if jsonTruthy sv then sv else (getAssoc ds "description").getD (Json.str ""))
        with
        | Json.str summary =>
          match (getAssoc ds "argos_summary").getD (Json.str "") with
          | Json.str argos_summary =>
            some (pyStrip (String.intercalate " " [title, summary, argos_summary]).data)
          | _ => none
        | _ => none
      | _ => none
    | _ => none
  | _ => none

/--
The scan loop of `search_by_keywords` (lines 238-284) over the
scan-ordered file list.  `found` is `len(matches)` so far; the source
appends a match and then returns immediately when `len(matches) >= limit`.
Files whose read or text extraction raises are skipped (`except: continue`),
as are files whose stem is in `exclude_ids`.
-/
def searchGo (kws : List String) (limit min_hits : Nat) (excl : List String) :
    List (String × Option Json) → Nat → List SearchMatch
  | [], _ => []
  | (id, content) :: rest, found =>
    if id ∈ excl then searchGo kws limit min_hits excl rest found
    else
      match content with
      | none => searchGo kws limit min_hits excl rest found
      | some article =>
        match extractText article with
        | none => searchGo kws limit min_hits excl rest found
        | some text =>
          let matched := kws.filter (fun k => kwSearch k (pyLower text))
          if min_hits ≤ matched.length then
            if found + 1 ≥ limit then [⟨id, matched, matched.length, article⟩]
            else
              ⟨id, matched, matched.length, article⟩ ::
                searchGo kws limit min_hits excl rest (found + 1)
          else searchGo kws limit min_hits excl rest found

/-- `search_by_keywords` (lines 188-284). -/
def search_by_keywords (files : List (String × Option Json)) (keywords : List String)
    (limit min_hits : Nat) (exclude_ids : List String) : List SearchMatch :=
  searchGo (prepKeywords keywords) limit min_hits exclude_ids files 0

/-- `list_articles` (lines 100-121): collect up to `limit` parseable
articles in scan order, skipping unreadable files (`except: continue`). -/
def list_articles : List (String × Option Json) → Nat → List Json
  | _, 0 => []
  | [], _ => []
  | (_, none) :: rest, n => list_articles rest n
  | (_, some j) :: rest, n + 1 => j :: list_articles rest n

/-- `_load_existing_ids` (lines 123-130): the ID set is built from the
`*.json` *file names* alone — file contents are never opened, so corrupt
files contribute their stem too.  The set is modelled as the list of stems
(only membership is observed). -/
def load_existing_ids (files : List (String × Option Json)) : List String :=
  files.map Prod.fst

/-- `_build_url_cache` (lines 132-158): scan every file; on a parseable
dict with a truthy `url`, set `url_to_id[url] = stem` (last writer wins);
any exception — unreadable JSON, or a non-dict top level making
`article.get` raise — skips the file.  As in `store_write`, a truthy
non-string `url` would occupy a non-string key invisible to string
lookups and is modelled as skipped. -/
def urlCacheStep (cache : List (String × String)) (stem : String)
    (content : Option Json) : List (String × String) :=
  match content with
  | some (Json.obj fs) =>
    match getAssoc fs "url" with
    | some (Json.str u) => if u = "" then cache else setAssoc cache u stem
    | _ => cache
  | _ => cache

def build_url_cache : List (String × Option Json) → List (String × String) →
    List (String × String)
  | [], cache => cache
  | (stem, content) :: rest, cache => build_url_cache rest (urlCacheStep cache stem content)

/-
## Association-list and generator helper lemmas
-/

theorem getAssoc_setAssoc_self {α : Type} (m : List (String × α)) (k : String) (v : α) :
    getAssoc (setAssoc m k v) k = some v := by
  induction m with
  | nil => simp [setAssoc, getAssoc]
  | cons hd tl ih =>
    obtain ⟨k', v'⟩ := hd
    simp only [setAssoc]
    split
    · simp [getAssoc]
    · next hne => simp [getAssoc, hne, ih]

theorem getAssoc_append_of_none {α : Type} (l₁ l₂ : List (String × α)) (k : String)
    (h : getAssoc l₁ k = none) : getAssoc (l₁ ++ l₂) k = getAssoc l₂ k := by
  induction l₁ with
  | nil => simp
  | cons hd tl ih =>
    obtain ⟨k', v'⟩ := hd
    simp only [getAssoc] at h
    split at h
    · cases h
    · next hne =>
      simp only [List.cons_append, getAssoc]
      rw [if_neg hne]
      exact ih h

theorem generate_run_fresh (ids : List String) :
    ∀ draws r rest, generate_article_id_run ids draws = some (r, rest) →
      r ∉ ids ∧ r ∈ draws := by
  intro draws
  induction draws with
  | nil => intro r rest h; simp [generate_article_id_run] at h
  | cons c cs ih =>
    intro r rest h
    simp only [generate_article_id_run] at h
    split at h
    · have := ih r rest h
      exact ⟨this.1, List.mem_cons_of_mem c this.2⟩
    · next hc =>
      cases h
      exact ⟨hc, List.mem_cons_self c cs⟩

theorem generate_run_exhausted (ids : List String) :
    ∀ draws, generate_article_id_run ids draws = none ↔ ∀ c ∈ draws, c ∈ ids := by
  intro draws
  induction draws with
  | nil => simp [generate_article_id_run]
  | cons c cs ih =>
    simp only [generate_article_id_run]
    split
    · next hc => simp [ih, hc]
    · next hc => simp [hc]

/-
## C2 — ID generation: bounded retry with time-derived fallback?

The code (lines 318-332) is a bare `while True:` drawing candidates until
one is outside `self.article_ids`.  There is no attempt counter, no bound
of 100, and no time-derived fallback; if every candidate collides the loop
never returns.
-/

def c2ids : List String := ["AAAAAAAAA"]

def c2draws : List String := List.replicate 101 "AAAAAAAAA" ++ ["BBBBBBBBB"]

/-- C2 counterexample: on a draw stream whose first 101 candidates all
collide, the code keeps drawing and returns the 102nd *random* candidate,
whereas the claimed behavior would have returned the deterministic
time-derived fallback after 100 collisions; moreover even 300 colliding
draws leave the loop still running (no fallback is ever produced). -/
theorem c2_counterexample :
    generate_article_id c2ids c2draws = some "BBBBBBBBB" ∧
    generate_article_id_claimed c2ids "TIMEFALLBK" 100 c2draws = "TIMEFALLBK" ∧
    "BBBBBBBBB" ≠ "TIMEFALLBK" ∧
    generate_article_id c2ids (List.replicate 300 "AAAAAAAAA") = none := by
  refine ⟨by decide, by decide, by decide, by decide⟩

/-- C2 (amended): `generate_article_id` retries without any bound: it
returns the first drawn candidate outside the known-ID set — never a
time-derived fallback — and it fails to return at all exactly when every
drawn candidate is already known. -/
theorem c2_generate_unbounded_no_fallback (ids draws : List String) :
    (∀ r, generate_article_id ids draws = some r → r ∈ draws ∧ r ∉ ids) ∧
    (generate_article_id ids draws = none ↔ ∀ c ∈ draws, c ∈ ids) := by
  constructor
  · intro r h
    simp only [generate_article_id, Option.map_eq_some'] at h
    obtain ⟨⟨r', rest⟩, hrun, hr⟩ := h
    cases hr
    have := generate_run_fresh ids draws r' rest hrun
    exact ⟨this.2, this.1⟩
  · simp only [generate_article_id, Option.map_eq_none']
    exact generate_run_exhausted ids draws

/-- C2 witness: the amended theorem applied to the counterexample stream. -/
theorem c2_witness :
    "BBBBBBBBB" ∈ c2draws ∧ "BBBBBBBBB" ∉ c2ids :=
  (c2_generate_unbounded_no_fallback c2ids c2draws).1 "BBBBBBBBB" (by decide)

/-
## C7 — N sequential `generate_article_id` calls pairwise distinct?

The generator never records the IDs it hands out (`self.article_ids` is
only updated by `store_article`), so two consecutive calls can draw and
return the same candidate.
-/

/-- C7 counterexample: with an empty known-ID set, a first call that draws
`XXXXXXXX1` returns it leaving `[XXXXXXXX1]` of the stream, and the second
call returns the very same ID — two sequential calls with no intervening
store are not pairwise distinct. -/
theorem c7_counterexample :
    generate_article_id_run [] ["XXXXXXXX1", "XXXXXXXX1"] =
      some ("XXXXXXXX1", ["XXXXXXXX1"]) ∧
    generate_article_id_run [] ["XXXXXXXX1"] = some ("XXXXXXXX1", []) :=
  ⟨rfl, rfl⟩

/-- C7 (amended): every ID returned by `generate_article_id` lies outside
the store's known-ID set at call time — in particular a stored ID is never
returned — but the call does not reserve its result, so consecutive calls
may repeat an ID. -/
theorem c7_generate_fresh_unreserved (s : StoreState) (draws : List String)
    (r : String) (rest : List String)
    (h : generate_article_id_run s.article_ids draws = some (r, rest)) :
    r ∉ s.article_ids ∧ r ∈ draws :=
  generate_run_fresh s.article_ids draws r rest h

/-- C7 witness: with `STOREDID1` stored, the generator skips it and
returns the fresh draw. -/
theorem c7_witness :
    "FRESHID22" ∉ (StoreState.mk ["STOREDID1"] [] []).article_ids ∧
    "FRESHID22" ∈ ["STOREDID1", "FRESHID22"] :=
  c7_generate_fresh_unreserved (StoreState.mk ["STOREDID1"] [] [])
    ["STOREDID1", "FRESHID22"] "FRESHID22" [] (by rfl)

/-
## Inversion and evaluation lemmas for `store_article`
-/

theorem store_article_ok_inv (s : StoreState) (a : List (String × Json)) (id : String)
    (s' : StoreState) (h : store_article s a = Except.ok (id, s')) :
    (getAssoc (unwrap_article a) "argos_id").getD Json.null = Json.str id ∧ id ≠ "" ∧
    ((id ∈ s.article_ids ∧ s' = s) ∨
     (id ∉ s.article_ids ∧ s' = store_write s (unwrap_article a) id)) := by
  unfold store_article at h
  split at h
  · next aid heq =>
    by_cases hemp : aid = ""
    · rw [if_pos hemp] at h
      exact Except.noConfusion h
    · rw [if_neg hemp] at h
      by_cases hmem : aid ∈ s.article_ids
      · rw [if_pos hmem] at h
        simp only [Except.ok.injEq, Prod.mk.injEq] at h
        obtain ⟨h1, h2⟩ := h
        subst h1
        subst h2
        exact ⟨heq, hemp, Or.inl ⟨hmem, rfl⟩⟩
      · rw [if_neg hmem] at h
        split at h
        · simp only [Except.ok.injEq, Prod.mk.injEq] at h
          obtain ⟨h1, h2⟩ := h
          subst h1
          subst h2
          exact ⟨heq, hemp, Or.inr ⟨hmem, rfl⟩⟩
        · split at h
          · exact Except.noConfusion h
          · simp only [Except.ok.injEq, Prod.mk.injEq] at h
            obtain ⟨h1, h2⟩ := h
            subst h1
            subst h2
            exact ⟨heq, hemp, Or.inr ⟨hmem, rfl⟩⟩
  · split at h
    · exact Except.noConfusion h
    · exact Except.noConfusion h

theorem store_article_known (s : StoreState) (a : List (String × Json)) (id : String)
    (hmatch : (getAssoc (unwrap_article a) "argos_id").getD Json.null = Json.str id)
    (hne : id ≠ "") (hmem : id ∈ s.article_ids) :
    store_article s a = Except.ok (id, s) := by
  unfold store_article
  split
  · next aid heq =>
    rw [hmatch] at heq
    injection heq with haid
    subst haid
    rw [if_neg hne, if_pos hmem]
  · next hnc =>
    exact absurd hmatch (hnc id)

/-
## C6 — store is idempotent on a known ID
-/

/-- C6: a successful `store_article` leaves its ID in the ID set; calling
`store_article` again with the same article is a no-op returning the same
ID and the same state (in particular no disk write); a call whose ID is
already known changes nothing; and a call whose ID is new appends exactly
one file. -/
theorem c6_store_idempotent (s : StoreState) (a : List (String × Json)) (id : String)
    (s' : StoreState) (h : store_article s a = Except.ok (id, s')) :
    id ∈ s'.article_ids ∧
    store_article s' a = Except.ok (id, s') ∧
    (id ∈ s.article_ids → s' = s) ∧
    (id ∉ s.article_ids →
      s'.files = s.files ++ [(id, some (Json.obj (unwrap_article a)))]) := by
  obtain ⟨hmatch, hne, hcases⟩ := store_article_ok_inv s a id s' h
  rcases hcases with ⟨hmem, rfl⟩ | ⟨hmem, rfl⟩
  · exact ⟨hmem, h, fun _ => rfl, fun hn => absurd hmem hn⟩
  · have hmem' : id ∈ (store_write s (unwrap_article a) id).article_ids :=
      List.mem_cons_self id s.article_ids
    exact ⟨hmem', store_article_known _ a id hmatch hne hmem',
      fun hc => absurd hc hmem, fun _ => rfl⟩

def emptyStore : StoreState := StoreState.mk [] [] []

def c6art : List (String × Json) :=
  [("argos_id", Json.str "DDDDDDDD6"), ("url", Json.str "http://example.com/d")]

def c6s1 : StoreState :=
  StoreState.mk ["DDDDDDDD6"] [("http://example.com/d", "DDDDDDDD6")]
    [("DDDDDDDD6", some (Json.obj c6art))]

/-- C6 witness: storing the same article twice from the empty store: the
first call writes the single file, the second is a no-op returning the
same ID. -/
theorem c6_witness :
    "DDDDDDDD6" ∈ c6s1.article_ids ∧
    store_article c6s1 c6art = Except.ok ("DDDDDDDD6", c6s1) ∧
    ("DDDDDDDD6" ∈ emptyStore.article_ids → c6s1 = emptyStore) ∧
    ("DDDDDDDD6" ∉ emptyStore.article_ids →
      c6s1.files = emptyStore.files ++
        [("DDDDDDDD6", some (Json.obj (unwrap_article c6art)))]) :=
  c6_store_idempotent emptyStore c6art "DDDDDDDD6" c6s1 (by rfl)

/-
## C3 — what makes `store_article` fail fast?

`store_article` (lines 47-58) validates only `argos_id`; there is no check
of `url` anywhere in it — an article without `url` is stored normally and
merely not added to the URL cache (lines 81-84: `url = article_data.get("url");
if url: ...`).  (The HTTP ingest endpoint does validate `url`, but that is
a different function; the claim is about `store_article`.)
-/

def c3art : List (String × Json) := [("argos_id", Json.str "CCCCCCCC3")]

def c3s1 : StoreState :=
  StoreState.mk ["CCCCCCCC3"] [] [("CCCCCCCC3", some (Json.obj c3art))]

/-- C3 counterexample: a store call whose article has an `argos_id` but
no `url` field at all is *accepted*: it returns the ID and writes one
file, instead of failing fast as the claim requires. -/
theorem c3_counterexample :
    getAssoc (unwrap_article c3art) "url" = none ∧
    store_article emptyStore c3art = Except.ok ("CCCCCCCC3", c3s1) ∧
    c3s1.files.length = 1 :=
  ⟨rfl, rfl, rfl⟩

/-- C3 (amended): `store_article` fails fast exactly on a missing (or
falsy, e.g. empty-string) `argos_id`; a missing `url` is accepted — the
article is written and simply not indexed in the URL cache. -/
theorem c3_store_requires_argos_id_only (s : StoreState) (a : List (String × Json)) :
    (getAssoc (unwrap_article a) "argos_id" = none →
      store_article s a = Except.error "Article must have argos_id") ∧
    (getAssoc (unwrap_article a) "argos_id" = some (Json.str "") →
      store_article s a = Except.error "Article must have argos_id") ∧
    (∀ id, getAssoc (unwrap_article a) "argos_id" = some (Json.str id) → id ≠ "" →
      id ∉ s.article_ids → getAssoc (unwrap_article a) "url" = none →
      jsonTruthy (pubDateVal (unwrap_article a)) = false →
      store_article s a = Except.ok (id, StoreState.mk (id :: s.article_ids) s.url_to_id
        (s.files ++ [(id, some (Json.obj (unwrap_article a)))]))) := by
  refine ⟨?_, ?_, ?_⟩
  · intro hnone
    unfold store_article
    rw [hnone]
    rfl
  · intro hempty
    unfold store_article
    rw [hempty]
    rfl
  · intro id hid hne hmem hurl hpd
    unfold store_article
    rw [hid]
    show (if id = "" then _ else if id ∈ s.article_ids then _ else _) = _
    rw [if_neg hne, if_neg hmem]
    have hwrite : store_write s (unwrap_article a) id =
        StoreState.mk (id :: s.article_ids) s.url_to_id
          (s.files ++ [(id, some (Json.obj (unwrap_article a)))]) := by
      unfold store_write
      rw [hurl]
    split
    · rw [hwrite]
    · rw [if_neg (by rw [hpd]; exact Bool.false_ne_true), hwrite]

/-- C3 witness: the amended theorem at the concrete no-url article. -/
theorem c3_witness :
    store_article emptyStore c3art =
      Except.ok ("CCCCCCCC3", StoreState.mk ("CCCCCCCC3" :: emptyStore.article_ids)
        emptyStore.url_to_id
        (emptyStore.files ++ [("CCCCCCCC3", some (Json.obj (unwrap_article c3art)))])) :=
  (c3_store_requires_argos_id_only emptyStore c3art).2.2 "CCCCCCCC3" (by rfl) (by decide)
    (by decide) (by rfl) (by rfl)

/-
## C1 — URL cache: first-seen or last-seen?

`store_article` never consults the URL cache before writing; on every
write it executes `self.url_to_id[url] = argos_id` (line 84), overwriting
any earlier binding.  Two successful stores with the same `url` and
different new IDs therefore leave the cache pointing at the *second* ID.
-/

def c1artA : List (String × Json) :=
  [("argos_id", Json.str "AAAAAAAA1"), ("url", Json.str "http://example.com/x")]

def c1artB : List (String × Json) :=
  [("argos_id", Json.str "BBBBBBBB2"), ("url", Json.str "http://example.com/x")]

def c1s1 : StoreState :=
  StoreState.mk ["AAAAAAAA1"] [("http://example.com/x", "AAAAAAAA1")]
    [("AAAAAAAA1", some (Json.obj c1artA))]

def c1s2 : StoreState :=
  StoreState.mk ["BBBBBBBB2", "AAAAAAAA1"] [("http://example.com/x", "BBBBBBBB2")]
    [("AAAAAAAA1", some (Json.obj c1artA)), ("BBBBBBBB2", some (Json.obj c1artB))]

/-- C1 counterexample: two successful stores with the same URL and
different assigned IDs, after which `find_article_by_url` returns the
*second* stored ID, not the first. -/
theorem c1_counterexample :
    store_article emptyStore c1artA = Except.ok ("AAAAAAAA1", c1s1) ∧
    store_article c1s1 c1artB = Except.ok ("BBBBBBBB2", c1s2) ∧
    find_article_by_url c1s2 "http://example.com/x" = some "BBBBBBBB2" ∧
    "BBBBBBBB2" ≠ "AAAAAAAA1" :=
  ⟨rfl, rfl, rfl, by decide⟩

/-- C1 (amended): the URL cache records the *last-seen* ID: after any
store call that actually writes (its ID is new) an article with a truthy
`url`, `find_article_by_url` on that url returns that call's ID —
overwriting whatever ID the cache previously held for the url. -/
theorem c1_url_cache_last_write_wins (s : StoreState) (a : List (String × Json))
    (id u : String) (s' : StoreState)
    (h : store_article s a = Except.ok (id, s'))
    (hnew : id ∉ s.article_ids)
    (hu : getAssoc (unwrap_article a) "url" = some (Json.str u)) (hune : u ≠ "") :
    find_article_by_url s' u = some id := by
  obtain ⟨_, _, hcases⟩ := store_article_ok_inv s a id s' h
  rcases hcases with ⟨hmem, rfl⟩ | ⟨_, rfl⟩
  · exact absurd hmem hnew
  · unfold find_article_by_url store_write
    rw [if_neg hune]
    show getAssoc
      (match getAssoc (unwrap_article a) "url" with
        | some (Json.str u') => if u' = "" then s.url_to_id else setAssoc s.url_to_id u' id
        | _ => s.url_to_id) u = some id
    rw [hu]
    show getAssoc (if u = "" then s.url_to_id else setAssoc s.url_to_id u id) u = some id
    rw [if_neg hune]
    exact getAssoc_setAssoc_self s.url_to_id u id

/-- C1 witness: the amended theorem at the second store of the
counterexample pair. -/
theorem c1_witness : find_article_by_url c1s2 "http://example.com/x" = some "BBBBBBBB2" :=
  c1_url_cache_last_write_wins c1s1 c1artB "BBBBBBBB2" "http://example.com/x" c1s2
    (by rfl) (by decide) (by rfl) (by decide)

/-
## C4 — unwrap on write and on read

`unwrap_article` strips a wrapper level only when the nested `data` dict
itself contains `url` or `argos_id`.  The claim's double-wrapped input
`{"data": {"data": {"argos_id": "X", "url": "u"}}}` has an intermediate
wrapper containing only `data`, so it is *not* unwrapped, and the store
then rejects it for lacking a top-level `argos_id`.  On read,
`get_article` (lines 89-98) returns the file content verbatim with no
unwrap step, so a pre-existing double-wrapped file comes back wrapped.
-/

def c4wrapped : List (String × Json) :=
  [("data", Json.obj [("data",
    Json.obj [("argos_id", Json.str "XWRAPPED9"), ("url", Json.str "http://w")])])]

def c4preState : StoreState :=
  StoreState.mk ["XWRAPPED9"] [] [("XWRAPPED9", some (Json.obj c4wrapped))]

/-- C4 counterexample: storing the claim's double-wrapped article is
rejected with "Article must have argos_id" (no flat file is produced,
because `unwrap_article` leaves it unchanged — the intermediate wrapper
holds neither `url` nor `argos_id`); and `get_article` on a pre-existing
double-wrapped file returns it still wrapped (top level has a `data` key
and no `argos_id`), not the flat form. -/
theorem c4_counterexample :
    unwrap_article c4wrapped = c4wrapped ∧
    store_article emptyStore c4wrapped = Except.error "Article must have argos_id" ∧
    get_article c4preState "XWRAPPED9" = Except.ok (some (Json.obj c4wrapped)) ∧
    hasKey c4wrapped "argos_id" = false ∧
    hasKey c4wrapped "data" = true :=
  ⟨rfl, rfl, rfl, rfl, rfl⟩

/-- C4 (amended): every file actually written by `store_article` holds
`unwrap_article` of the input — a fixed point of unwrapping, whose `data`
field (if a dict) carries neither `url` nor `argos_id` — and `get_article`
returns exactly that stored content (it never unwraps on read, so what is
flat on disk is returned flat, and what is wrapped on disk stays wrapped). -/
theorem c4_store_writes_unwrapped_get_verbatim (s : StoreState)
    (a : List (String × Json)) (id : String) (s' : StoreState)
    (h : store_article s a = Except.ok (id, s')) (hnew : id ∉ s.article_ids)
    (hnofile : getAssoc s.files id = none) :
    get_article s' id = Except.ok (some (Json.obj (unwrap_article a))) ∧
    dataChildFlat (unwrap_article a) = true := by
  obtain ⟨_, _, hcases⟩ := store_article_ok_inv s a id s' h
  rcases hcases with ⟨hmem, rfl⟩ | ⟨_, rfl⟩
  · exact absurd hmem hnew
  · refine ⟨?_, unwrap_article_flat a⟩
    unfold get_article store_write
    show (match getAssoc (s.files ++ [(id, some (Json.obj (unwrap_article a)))]) id with
      | none => Except.ok none
      | some none => Except.error "json.load failed"
      | some (some j) => Except.ok (some j)) = _
    rw [getAssoc_append_of_none s.files _ id hnofile]
    simp [getAssoc]

def c4sgl : List (String × Json) :=
  [("data", Json.obj [("argos_id", Json.str "FLATID999"), ("url", Json.str "http://f")])]

def c4s1 : StoreState :=
  StoreState.mk ["FLATID999"] [("http://f", "FLATID999")]
    [("FLATID999",
      some (Json.obj [("argos_id", Json.str "FLATID999"), ("url", Json.str "http://f")]))]

/-- C4 witness: a single-wrapped article (whose `data` dict does carry
`argos_id`/`url`) is flattened on write and read back flat. -/
theorem c4_witness :
    get_article c4s1 "FLATID999" = Except.ok (some (Json.obj (unwrap_article c4sgl))) ∧
    dataChildFlat (unwrap_article c4sgl) = true :=
  c4_store_writes_unwrapped_get_verbatim emptyStore c4sgl "FLATID999" c4s1
    (by rfl) (by decide) (by rfl)

/-
## C10 — `unwrap_article` is idempotent and its result is flat
-/

/-- C10: unwrapping is idempotent, and the result never has a `data`
sub-dict that itself contains `url` or `argos_id` (the loop-exit
condition). -/
theorem c10_unwrap_idempotent_flat (fs : List (String × Json)) :
    unwrap_article (unwrap_article fs) = unwrap_article fs ∧
    ∀ gs, getAssoc (unwrap_article fs) "data" = some (Json.obj gs) →
      hasKey gs "url" = false ∧ hasKey gs "argos_id" = false := by
  refine ⟨unwrap_article_idem fs, ?_⟩
  intro gs hg
  have hflat := unwrap_article_flat fs
  simp only [dataChildFlat, hg, Bool.not_eq_true', Bool.or_eq_false_iff] at hflat
  exact hflat

def c10fs : List (String × Json) :=
  [("data", Json.obj [("url", Json.str "u"), ("data", Json.obj [("x", Json.str "y")])])]

/-- C10 witness: a wrapped article whose unwrapped form still has a
(benign) `data` sub-dict — that sub-dict indeed holds neither `url` nor
`argos_id`. -/
theorem c10_witness :
    hasKey [("x", Json.str "y")] "url" = false ∧
    hasKey [("x", Json.str "y")] "argos_id" = false :=
  (c10_unwrap_idempotent_flat c10fs).2 [("x", Json.str "y")] (by rfl)

/-
## C5 — keyword word-boundary behavior

For the single-token keyword "ai" the built pattern is the literal `ai`
guarded by the two lookarounds; the separator flexibility only arises
*between* tokens of a multi-token keyword, and the accepted separators are
hyphen, slash and whitespace — a period is not one of them, so "A.I."
cannot match keyword "ai".
-/

def c5artContains : Json := Json.obj [("title", Json.str "contains")]

def c5artSaid : Json := Json.obj [("title", Json.str "said")]

def c5artReg : Json := Json.obj [("title", Json.str "AI regulation")]

def c5artRT : Json := Json.obj [("title", Json.str "real-time AI")]

def c5artDot : Json := Json.obj [("title", Json.str "A.I.")]

/-- C5 counterexample: searching keyword "ai" with `min_hits = 1` over an
article whose text is "A.I." finds nothing — the pattern for the
one-token keyword "ai" is the literal `ai` with boundary guards, and `.`
is not an accepted separator. -/
theorem c5_counterexample :
    search_by_keywords [("ARTAIDOT55", some c5artDot)] ["ai"] 5 1 [] = [] ∧
    kwSearch "ai" (pyLower "A.I.".data) = false :=
  ⟨rfl, by decide⟩

/-- C5 (amended): keyword "ai" with `min_hits = 1` does not match text
where "ai" sits inside a longer alphanumeric run ("contains", "said"),
matches "AI regulation" and "real-time AI", but does not match "A.I.";
keyword "re" does not match inside "rate"; and between the tokens of a
multi-token keyword at most one hyphen, slash, space, or nothing is
accepted. -/
theorem c5_keyword_boundary_behavior :
    search_by_keywords [("ARTCONT111", some c5artContains)] ["ai"] 5 1 [] = [] ∧
    search_by_keywords [("ARTSAID222", some c5artSaid)] ["ai"] 5 1 [] = [] ∧
    search_by_keywords [("ARTREG3333", some c5artReg)] ["ai"] 5 1 [] =
      [SearchMatch.mk "ARTREG3333" ["ai"] 1 c5artReg] ∧
    search_by_keywords [("ARTRT44444", some c5artRT)] ["ai"] 5 1 [] =
      [SearchMatch.mk "ARTRT44444" ["ai"] 1 c5artRT] ∧
    search_by_keywords [("ARTAIDOT55", some c5artDot)] ["ai"] 5 1 [] = [] ∧
    kwSearch "re" (pyLower "rate".data) = false ∧
    kwSearch "machine-learning" (pyLower "machine learning rocks".data) = true ∧
    kwSearch "machine-learning" (pyLower "machine/learning".data) = true ∧
    kwSearch "machine-learning" (pyLower "machinelearning".data) = true ∧
    kwSearch "machine-learning" (pyLower "machine--learning".data) = false :=
  ⟨rfl, rfl, rfl, rfl, rfl, by decide, by decide, by decide, by decide, by decide⟩

/-
## C8 — the min_hits threshold
-/

theorem searchGo_mem_spec (kws : List String) (limit min_hits : Nat)
    (excl : List String) :
    ∀ files found m, m ∈ searchGo kws limit min_hits excl files found →
      min_hits ≤ m.hit_count ∧ m.hit_count = m.matched_keywords.length ∧
      ∃ text, extractText m.article = some text ∧
        m.matched_keywords = kws.filter (fun k => kwSearch k (pyLower text)) := by
  intro files
  induction files with
  | nil => intro found m h; simp [searchGo] at h
  | cons hd rest ih =>
    obtain ⟨id, content⟩ := hd
    intro found m h
    simp only [searchGo] at h
    split at h
    · exact ih found m h
    · split at h
      · exact ih found m h
      · split at h
        · exact ih found m h
        · next article text htext =>
          split at h
          · next hthr =>
            split at h
            · rw [List.mem_singleton] at h
              subst h
              exact ⟨hthr, rfl, text, htext, rfl⟩
            · rcases List.mem_cons.mp h with rfl | hm
              · exact ⟨hthr, rfl, text, htext, rfl⟩
              · exact ih (found + 1) m hm
          · exact ih found m h

def c8artFedOnly : Json := Json.obj [("title", Json.str "The Fed speaks")]

def c8artFedRate : Json := Json.obj [("title", Json.str "Fed hikes RATE again")]

def c8files : List (String × Option Json) :=
  [("FEDONLY11", some c8artFedOnly), ("FEDRATE22", some c8artFedRate)]

def c8matchRec : SearchMatch := SearchMatch.mk "FEDRATE22" ["fed", "rate"] 2 c8artFedRate

/-- C8: every match returned by `search_by_keywords` has
`hit_count = matched_keywords.length ≥ min_hits`, with `matched_keywords`
the order-preserving, case-insensitively matched sublist of the prepared
keywords; concretely, with keywords `["fed", "rate", "inflation"]` and
`min_hits = 2` the article matching only "fed" is excluded while the
article matching "fed" and "rate" is returned with `hit_count = 2` and
`matched_keywords = ["fed", "rate"]`. -/
theorem c8_min_hits_threshold :
    (∀ files kws limit mh excl m, m ∈ search_by_keywords files kws limit mh excl →
      mh ≤ m.hit_count ∧ m.hit_count = m.matched_keywords.length ∧
      ∃ text, extractText m.article = some text ∧
        m.matched_keywords = (prepKeywords kws).filter (fun k => kwSearch k (pyLower text))) ∧
    search_by_keywords c8files ["fed", "rate", "inflation"] 5 2 [] = [c8matchRec] := by
  constructor
  · intro files kws limit mh excl m h
    exact searchGo_mem_spec (prepKeywords kws) limit mh excl files 0 m h
  · rfl

/-- C8 witness: the general part of the theorem applied to the single
match of the concrete scenario. -/
theorem c8_witness :
    2 ≤ c8matchRec.hit_count ∧
    c8matchRec.hit_count = c8matchRec.matched_keywords.length ∧
    ∃ text, extractText c8matchRec.article = some text ∧
      c8matchRec.matched_keywords =
        (prepKeywords ["fed", "rate", "inflation"]).filter
          (fun k => kwSearch k (pyLower text)) :=
  c8_min_hits_threshold.1 c8files ["fed", "rate", "inflation"] 5 2 [] c8matchRec
    (by rw [c8_min_hits_threshold.2]; exact List.mem_singleton.mpr rfl)

/-
## C9 — corrupt files during scans and index construction

`list_articles`, `search_by_keywords` and `_build_url_cache` each wrap the
per-file read in try/except and skip unreadable files.  `_load_existing_ids`
never opens any file: it collects the stems of all `*.json` names, so a
corrupt file's ID *is* included in the ID set.
-/

theorem list_articles_skips_corrupt (files : List (String × Option Json)) :
    ∀ limit, list_articles files limit =
      list_articles (files.filter (fun p => p.2.isSome)) limit := by
  induction files with
  | nil => intro limit; cases limit <;> rfl
  | cons hd rest ih =>
    obtain ⟨id, c⟩ := hd
    intro limit
    cases c with
    | none =>
      have hf : ((id, (none : Option Json)) :: rest).filter (fun p => p.2.isSome) =
          rest.filter (fun p => p.2.isSome) := by
        simp [List.filter_cons]
      rw [hf]
      cases limit with
      | zero => simp [list_articles]
      | succ n => exact ih (n + 1)
    | some j =>
      have hf : ((id, some j) :: rest).filter (fun p => p.2.isSome) =
          (id, some j) :: rest.filter (fun p => p.2.isSome) := by
        simp [List.filter_cons]
      rw [hf]
      cases limit with
      | zero => rfl
      | succ n =>
        show j :: list_articles rest n = j :: list_articles (rest.filter _) n
        rw [ih n]

theorem build_url_cache_skips_corrupt (files : List (String × Option Json)) :
    ∀ cache, build_url_cache files cache =
      build_url_cache (files.filter (fun p => p.2.isSome)) cache := by
  induction files with
  | nil => intro cache; rfl
  | cons hd rest ih =>
    obtain ⟨stem, c⟩ := hd
    intro cache
    cases c with
    | none =>
      have hf : ((stem, (none : Option Json)) :: rest).filter (fun p => p.2.isSome) =
          rest.filter (fun p => p.2.isSome) := by
        simp [List.filter_cons]
      rw [hf]
      exact ih cache
    | some j =>
      have hf : ((stem, some j) :: rest).filter (fun p => p.2.isSome) =
          (stem, some j) :: rest.filter (fun p => p.2.isSome) := by
        simp [List.filter_cons]
      rw [hf]
      exact ih (urlCacheStep cache stem (some j))

theorem searchGo_skips_corrupt (kws : List String) (limit mh : Nat)
    (excl : List String) :
    ∀ files found, searchGo kws limit mh excl files found =
      searchGo kws limit mh excl (files.filter (fun p => p.2.isSome)) found := by
  intro files
  induction files with
  | nil => intro found; rfl
  | cons hd rest ih =>
    obtain ⟨id, c⟩ := hd
    intro found
    cases c with
    | none =>
      have hf : ((id, (none : Option Json)) :: rest).filter (fun p => p.2.isSome) =
          rest.filter (fun p => p.2.isSome) := by
        simp [List.filter_cons]
      rw [hf]
      by_cases hid : id ∈ excl
      · simp only [searchGo, if_pos hid]
        exact ih found
      · simp only [searchGo, if_neg hid]
        exact ih found
    | some j =>
      have hf : ((id, some j) :: rest).filter (fun p => p.2.isSome) =
          (id, some j) :: rest.filter (fun p => p.2.isSome) := by
        simp [List.filter_cons]
      rw [hf]
      by_cases hid : id ∈ excl
      · simp only [searchGo, if_pos hid]
        exact ih found
      · simp only [searchGo, if_neg hid]
        cases htext : extractText j with
        | none =>
          simp only [htext]
          exact ih found
        | some text =>
          simp only [htext]
          by_cases hthr : mh ≤ (kws.filter (fun k => kwSearch k (pyLower text))).length
          · rw [if_pos hthr, if_pos hthr]
            by_cases hlim : found + 1 ≥ limit
            · rw [if_pos hlim, if_pos hlim]
            · rw [if_neg hlim, if_neg hlim, ih (found + 1)]
          · rw [if_neg hthr, if_neg hthr]
            exact ih found

def c9goodArt : Json :=
  Json.obj [("url", Json.str "http://good"), ("title", Json.str "good news")]

def c9files : List (String × Option Json) :=
  [("BADFILE99", none), ("GOODFILE9", some c9goodArt)]

/-- C9 counterexample: with one corrupt file `BADFILE99.json` in the
store, `list_articles`, `search_by_keywords` and the URL cache all
complete and omit it — but the startup *ID set* is built from file names
alone, so it *includes* `BADFILE99`, contradicting the claim that index
construction omits the unreadable file from its results. -/
theorem c9_counterexample :
    list_articles c9files 50 = [c9goodArt] ∧
    build_url_cache c9files [] = [("http://good", "GOODFILE9")] ∧
    search_by_keywords c9files ["good"] 5 1 [] =
      [SearchMatch.mk "GOODFILE9" ["good"] 1 c9goodArt] ∧
    load_existing_ids c9files = ["BADFILE99", "GOODFILE9"] ∧
    "BADFILE99" ∈ load_existing_ids c9files :=
  ⟨rfl, rfl, rfl, rfl, by decide⟩

/-- C9 (amended): scan-based operations never abort on corrupt files:
`list_articles`, `search_by_keywords` and URL-cache construction compute
exactly what they would compute with the unreadable files removed; the
startup ID set also completes, but — reading only file names — it keeps
the corrupt file's stem in the ID set. -/
theorem c9_scan_skips_corrupt (files : List (String × Option Json)) (limit mh : Nat)
    (kws excl : List String) (cache : List (String × String)) :
    list_articles files limit =
      list_articles (files.filter (fun p => p.2.isSome)) limit ∧
    build_url_cache files cache =
      build_url_cache (files.filter (fun p => p.2.isSome)) cache ∧
    search_by_keywords files kws limit mh excl =
      search_by_keywords (files.filter (fun p => p.2.isSome)) kws limit mh excl ∧
    load_existing_ids files = files.map Prod.fst :=
  ⟨list_articles_skips_corrupt files limit,
   build_url_cache_skips_corrupt files cache,
   searchGo_skips_corrupt (prepKeywords kws) limit mh excl files 0,
   rfl⟩
